import Mathlib

/-!
Shallow embedding of the macOS gamepad backend
(`internal/gamepad/gamepad_darwin.go`): element classification, value
sampling with auto-calibration, hat decoding, identifier generation and
the hot-plug callbacks.  Native handles (`IOHIDDeviceRef`,
`IOHIDElementRef`) are modelled as `Nat` (0 = null); the platform value
read `IOHIDDeviceGetValue` is an environment `read : Nat → Option Int`
(`none` = failed read).  Go `float64` arithmetic in axis normalization is
modelled exactly over `ℚ`; every value in the claims below is exactly
representable, and rounding to nearest cannot move a quotient of
endpoints outside the stated interval, so the `ℚ` model agrees with the
`float64` computation on all stated properties.
-/

/-- Hat direction constants. Modelled from the spec: these constants are
declared in the gamepad package's shared (platform-independent) file, which
is not part of the sources here; the spec (§6) lists the states
{Centered, Up, RightUp, Right, RightDown, Down, LeftDown, Left, LeftUp}.
Only their distinctness matters to the claims; the conventional
bit-mask encoding (Up=1, Right=2, Down=4, Left=8, diagonals OR-ed,
Centered=0) is used. -/
def hatCentered : Int := 0

def hatUp : Int := 1

def hatRight : Int := 2

def hatDown : Int := 4

def hatLeft : Int := 8

def hatRightUp : Int := hatRight + hatUp

def hatRightDown : Int := hatRight + hatDown

def hatLeftUp : Int := hatLeft + hatUp

def hatLeftDown : Int := hatLeft + hatDown

/-- IOKit HID element type tags (`IOHIDElementGetType`). -/
def kIOHIDElementTypeInput_Misc : Int := 1

def kIOHIDElementTypeInput_Button : Int := 2

def kIOHIDElementTypeInput_Axis : Int := 3

/-- HID usage pages. -/
def kHIDPage_GenericDesktop : Int := 0x01

def kHIDPage_Simulation : Int := 0x02

def kHIDPage_Button : Int := 0x09

def kHIDPage_Consumer : Int := 0x0C

/-- Generic-desktop usage codes. -/
def kHIDUsage_GD_X : Int := 0x30

def kHIDUsage_GD_Y : Int := 0x31

def kHIDUsage_GD_Z : Int := 0x32

def kHIDUsage_GD_Rx : Int := 0x33

def kHIDUsage_GD_Ry : Int := 0x34

def kHIDUsage_GD_Rz : Int := 0x35

def kHIDUsage_GD_Slider : Int := 0x36

def kHIDUsage_GD_Dial : Int := 0x37

def kHIDUsage_GD_Wheel : Int := 0x38

def kHIDUsage_GD_Hatswitch : Int := 0x39

def kHIDUsage_GD_Select : Int := 0x3E

def kHIDUsage_GD_Start : Int := 0x3D

def kHIDUsage_GD_SystemMainMenu : Int := 0x85

def kHIDUsage_GD_DPadUp : Int := 0x90

def kHIDUsage_GD_DPadDown : Int := 0x91

def kHIDUsage_GD_DPadRight : Int := 0x92

def kHIDUsage_GD_DPadLeft : Int := 0x93

/-- Simulation-page usage codes. -/
def kHIDUsage_Sim_Rudder : Int := 0xBA

def kHIDUsage_Sim_Throttle : Int := 0xBB

def kHIDUsage_Sim_Accelerator : Int := 0xC4

def kHIDUsage_Sim_Brake : Int := 0xC5

def kHIDUsage_Sim_Steering : Int := 0xC8

/-- The Go struct `element`: one classified input element.  `native` is the
`IOHIDElementRef` handle; `minimum`/`maximum` carry the logical range used
as calibration bounds. -/
structure Element where
  native : Nat
  usage : Int
  index : Int
  minimum : Int
  maximum : Int
  deriving Repr, DecidableEq

/-- The Go method `elements.Less`: order by usage, then by index. -/
def elemLess (a b : Element) : Bool :=
  if a.usage ≠ b.usage then a.usage < b.usage
  else if a.index ≠ b.index then a.index < b.index
  else false

/-- The Go struct `nativeGamepad`. `device` is the `IOHIDDeviceRef`
handle (0 = null).  Value buffers hold the results of the last `update`;
the Go capacity-reuse of the backing arrays is invisible at the value
level (each poll sets the length to the bucket size and overwrites every
slot). -/
structure NativeGamepad where
  device : Nat
  axes : List Element
  buttons : List Element
  hats : List Element
  axisValues : List ℚ
  buttonValues : List Bool
  hatValues : List Int
  deriving Repr

/-- The Go method `nativeGamepad.present`. -/
def NativeGamepad.present (g : NativeGamepad) : Bool :=
  g.device ≠ 0

/-- The Go method `nativeGamepad.elementValue`: 0 when the device handle is
null or the platform read fails, otherwise the integer value read. -/
def elementValue (g : NativeGamepad) (read : Nat → Option Int) (e : Element) : Int :=
  if g.device = 0 then 0
  else match read e.native with
    | some v => v
    | none => 0

/-- Normalization step of the axis loop (lines 143-146 of the source):
`size := maximum - minimum; value = size != 0 ? 2*(raw-minimum)/size - 1 : 0`.
Go `float64` arithmetic is modelled over `ℚ`. -/
def normalizeQ (m M raw : Int) : ℚ :=
  if M - m ≠ 0 then 2 * ((raw : ℚ) - (m : ℚ)) / ((M - m : Int) : ℚ) - 1 else 0

/-- Body of the axis loop in `nativeGamepad.update`.  Note that the Go loop
iterates `for i, a := range g.axes` over element COPIES: the widened
`a.minimum` / `a.maximum` exist only in the loop-local copy `a` and are
never written back to `g.axes`. -/
def updateAxis (g : NativeGamepad) (read : Nat → Option Int) (a : Element) : ℚ :=
  let raw := elementValue g read a
  let a1 := if raw < a.minimum then { a with minimum := raw } else a
  let a2 := if raw > a1.maximum then { a1 with maximum := raw } else a1
  normalizeQ a2.minimum a2.maximum raw

/-- The fixed 8-entry direction table `hatStates` in `nativeGamepad.update`. -/
def hatStatesList : List Int :=
  [hatUp, hatRightUp, hatRight, hatRightDown, hatDown, hatLeftDown, hatLeft, hatLeftUp]

/-- Body of the hat loop in `nativeGamepad.update`: the raw value indexes the
fixed direction table, anything out of range maps to `hatCentered`. -/
def hatDecode (state : Int) : Int :=
  if state < 0 ∨ state ≥ (hatStatesList.length : Int) then hatCentered
  else hatStatesList.getD state.toNat hatCentered

/-- The Go method `nativeGamepad.update`: one sampling pass.  The element
buckets `axes`/`buttons`/`hats` are untouched (the Go loop mutates only
per-iteration copies); only the three value buffers are rewritten. -/
def update (g : NativeGamepad) (read : Nat → Option Int) : NativeGamepad :=
  { g with
    axisValues := g.axes.map (updateAxis g read)
    buttonValues := g.buttons.map (fun b => elementValue g read b > 0)
    hatValues := g.hats.map (fun h => hatDecode (elementValue g read h)) }

/-- The Go method `nativeGamepad.axisNum`. -/
def axisNum (g : NativeGamepad) : Int :=
  g.axisValues.length

/-- The Go method `nativeGamepad.buttonNum`. -/
def buttonNum (g : NativeGamepad) : Int :=
  g.buttonValues.length

/-- The Go method `nativeGamepad.hatNum`. -/
def hatNum (g : NativeGamepad) : Int :=
  g.hatValues.length

/-- The Go method `nativeGamepad.axisValue`: 0 when the index is out of
range. -/
def axisValue (g : NativeGamepad) (axis : Int) : ℚ :=
  if axis < 0 ∨ axis ≥ (g.axisValues.length : Int) then 0
  else g.axisValues.getD axis.toNat 0

/-- The Go method `nativeGamepad.isButtonPressed`: false when the index is
out of range. -/
def isButtonPressed (g : NativeGamepad) (button : Int) : Bool :=
  if button < 0 ∨ button ≥ (g.buttonValues.length : Int) then false
  else g.buttonValues.getD button.toNat false

/-- The Go method `nativeGamepad.hatState`: `hatCentered` when the index is
out of range. -/
def hatState (g : NativeGamepad) (hat : Int) : Int :=
  if hat < 0 ∨ hat ≥ (g.hatValues.length : Int) then hatCentered
  else g.hatValues.getD hat.toNat hatCentered

/-- Lowercase hexadecimal digit, as produced by Go `fmt` verb `%x`. -/
def hexDigit (n : Nat) : Char :=
  if n < 10 then Char.ofNat (48 + n) else Char.ofNat (87 + n)

/-- Go `fmt` verb `%02x` applied to a byte: exactly two lowercase hex
digits. -/
def byteHex (b : Nat) : String :=
  String.mk [hexDigit (b % 256 / 16), hexDigit (b % 16)]

/-- The SDL-style identifier computed in `ebitenGamepadMatchingCallback`
(lines 296-309).  `vendor`, `product`, `version` are the `uint32` device
properties (0 when the property is absent); `name` is the byte slice
`[]byte(name)` of the display name.  Go `byte(x)` is `x % 256` and
`byte(x>>8)` is `x / 256 % 256`. -/
def sdlID (vendor product version : Nat) (name : List Nat) : String :=
  if vendor ≠ 0 ∧ product ≠ 0 then
    "03000000" ++ byteHex (vendor % 256) ++ byteHex (vendor / 256 % 256) ++ "0000"
      ++ byteHex (product % 256) ++ byteHex (product / 256 % 256) ++ "0000"
      ++ byteHex (version % 256) ++ byteHex (version / 256 % 256) ++ "0000"
  else
    let bs := if name.length < 12 then name ++ List.replicate (12 - name.length) 0 else name
    "05000000" ++ byteHex (bs.getD 0 0) ++ byteHex (bs.getD 1 0) ++ byteHex (bs.getD 2 0)
      ++ byteHex (bs.getD 3 0) ++ byteHex (bs.getD 4 0) ++ byteHex (bs.getD 5 0)
      ++ byteHex (bs.getD 6 0) ++ byteHex (bs.getD 7 0) ++ byteHex (bs.getD 8 0)
      ++ byteHex (bs.getD 9 0) ++ byteHex (bs.getD 10 0) ++ byteHex (bs.getD 11 0)

/-- Hex-encoding of a byte sequence, two lowercase digits per byte. -/
def hexBytes : List Nat → String
  | [] => ""
  | b :: bs => byteHex b ++ hexBytes bs

/-- Restatement of the specified name-fallback identifier, following the
spec's words: take the first 12 bytes of the display name (zero-padded if
the name is shorter, truncated if longer), hex-encode them and prepend the
fixed marker.  Used as the comparison point for the code's `sdlID`. -/
def nameIdOfSpec (name : List Nat) : String :=
  "05000000" ++ hexBytes ((name ++ List.replicate 12 0).take 12)

/-- A raw HID element as enumerated by `IOHIDDeviceCopyMatchingElements`:
the native handle, whether the CF object really is a HID element
(`CFGetTypeID` check), its type tag, usage page, usage code and logical
range. -/
structure RawElement where
  native : Nat
  isElement : Bool
  typ : Int
  page : Int
  usage : Int
  logicalMin : Int
  logicalMax : Int
  deriving Repr, DecidableEq

/-- The `element` record built at classification time: `index` is the
bucket length at append time, the logical range seeds the calibration
bounds. -/
def mkElement (r : RawElement) (idx : Int) : Element :=
  { native := r.native, usage := r.usage, index := idx,
    minimum := r.logicalMin, maximum := r.logicalMax }

/-- The three element buckets of a gamepad being classified. -/
structure Buckets where
  axes : List Element
  buttons : List Element
  hats : List Element
  deriving Repr, DecidableEq

/-- One iteration of the element-classification loop in
`ebitenGamepadMatchingCallback` (lines 317-384): skip non-elements and
non-input types, then bucket by usage page and usage code, appending with
`index` equal to the bucket's current length. -/
def classifyStep (b : Buckets) (r : RawElement) : Buckets :=
  if ¬ r.isElement then b
  else if r.typ ≠ kIOHIDElementTypeInput_Axis ∧ r.typ ≠ kIOHIDElementTypeInput_Button
      ∧ r.typ ≠ kIOHIDElementTypeInput_Misc then b
  else if r.page = kHIDPage_GenericDesktop then
    if r.usage = kHIDUsage_GD_X ∨ r.usage = kHIDUsage_GD_Y ∨ r.usage = kHIDUsage_GD_Z
        ∨ r.usage = kHIDUsage_GD_Rx ∨ r.usage = kHIDUsage_GD_Ry ∨ r.usage = kHIDUsage_GD_Rz
        ∨ r.usage = kHIDUsage_GD_Slider ∨ r.usage = kHIDUsage_GD_Dial
        ∨ r.usage = kHIDUsage_GD_Wheel then
      { b with axes := b.axes ++ [mkElement r b.axes.length] }
    else if r.usage = kHIDUsage_GD_Hatswitch then
      { b with hats := b.hats ++ [mkElement r b.hats.length] }
    else if r.usage = kHIDUsage_GD_DPadUp ∨ r.usage = kHIDUsage_GD_DPadRight
        ∨ r.usage = kHIDUsage_GD_DPadDown ∨ r.usage = kHIDUsage_GD_DPadLeft
        ∨ r.usage = kHIDUsage_GD_SystemMainMenu ∨ r.usage = kHIDUsage_GD_Select
        ∨ r.usage = kHIDUsage_GD_Start then
      { b with buttons := b.buttons ++ [mkElement r b.buttons.length] }
    else b
  else if r.page = kHIDPage_Simulation then
    if r.usage = kHIDUsage_Sim_Accelerator ∨ r.usage = kHIDUsage_Sim_Brake
        ∨ r.usage = kHIDUsage_Sim_Throttle ∨ r.usage = kHIDUsage_Sim_Rudder
        ∨ r.usage = kHIDUsage_Sim_Steering then
      { b with axes := b.axes ++ [mkElement r b.axes.length] }
    else b
  else if r.page = kHIDPage_Button ∨ r.page = kHIDPage_Consumer then
    { b with buttons := b.buttons ++ [mkElement r b.buttons.length] }
  else b

/-- Non-strict order induced by `elements.Less`: `a` may precede `b` when
`Less b a` does not hold. -/
def elemLE (a b : Element) : Prop :=
  elemLess b a = false

instance : DecidableRel elemLE := fun a b =>
  inferInstanceAs (Decidable (elemLess b a = false))

/-- Model of Go `sort.Stable` with `elements.Less`: a stable sort into
non-decreasing order.  Insertion sort with the induced non-strict order is
stable, so it computes exactly the result `sort.Stable` guarantees (the
unique `Less`-sorted permutation preserving the relative order of
`Less`-equivalent elements). -/
def sortElements (l : List Element) : List Element :=
  l.insertionSort elemLE

/-- The full element-classification pass of `ebitenGamepadMatchingCallback`:
bucket every raw element, then stable-sort each bucket (lines 386-388). -/
def classify (rs : List RawElement) : Buckets :=
  let b := rs.foldl classifyStep ⟨[], [], []⟩
  ⟨sortElements b.axes, sortElements b.buttons, sortElements b.hats⟩

/-- A registry entry.  Modelled from the spec: the external registry owns
`Gamepad` records created by `add(name, identifier)`; each record carries
the native gamepad state the callback attaches to it (§6, §4.4).  The
registry itself and the `Gamepad` type live in the package's shared file,
which is not among the sources here. -/
structure Gamepad where
  name : List Nat
  sdlId : String
  native : NativeGamepad

/-- Modelled from the spec: registry `find(predicate)` returns the entry
matching the predicate, if any (§6). -/
def gamepadsFind (gs : List Gamepad) (p : Gamepad → Bool) : Option Gamepad :=
  gs.find? p

/-- Modelled from the spec: registry `add(name, identifier)` registers a new
logical gamepad (§6). -/
def gamepadsAdd (gs : List Gamepad) (g : Gamepad) : List Gamepad :=
  gs ++ [g]

/-- Modelled from the spec: registry `remove(predicate)` removes the
registry entry matching the predicate (§6). -/
def gamepadsRemove (gs : List Gamepad) (p : Gamepad → Bool) : List Gamepad :=
  gs.eraseP p

/-- Properties of a newly attached device as read by
`ebitenGamepadMatchingCallback`: the native handle, the display-name bytes,
the `uint32` vendor/product/version properties (0 when absent) and the
enumerated raw elements. -/
structure DeviceProps where
  device : Nat
  devName : List Nat
  vendor : Nat
  product : Nat
  version : Nat
  elements : List RawElement

/-- The hot-plug attach callback `ebitenGamepadMatchingCallback`: a no-op
when some registry entry already has this native handle; otherwise compute
the identifier, add a record, attach the handle and classify the elements. -/
def matchingCallback (gs : List Gamepad) (d : DeviceProps) : List Gamepad :=
  if (gamepadsFind gs (fun g => g.native.device == d.device)).isSome then gs
  else
    let b := classify d.elements
    gamepadsAdd gs
      { name := d.devName
        sdlId := sdlID d.vendor d.product d.version d.devName
        native :=
          { device := d.device, axes := b.axes, buttons := b.buttons, hats := b.hats,
            axisValues := [], buttonValues := [], hatValues := [] } }

/-- The hot-plug detach callback `ebitenGamepadRemovalCallback`: remove the
registry entry whose native handle matches. -/
def removalCallback (gs : List Gamepad) (device : Nat) : List Gamepad :=
  gamepadsRemove gs (fun g => g.native.device == device)

/-- Concrete fixture: a generic-desktop X-axis element with logical range
[-1, 1]. -/
def axisNeg1To1 : Element :=
  { native := 10, usage := kHIDUsage_GD_X, index := 0, minimum := -1, maximum := 1 }

/-- Concrete fixture: a generic-desktop X-axis element with logical range
[0, 0]. -/
def axisZeroZero : Element :=
  { native := 11, usage := kHIDUsage_GD_X, index := 0, minimum := 0, maximum := 0 }

/-- Concrete fixture: a hat-switch element with logical range [0, 7]. -/
def hatElem : Element :=
  { native := 12, usage := kHIDUsage_GD_Hatswitch, index := 0, minimum := 0, maximum := 7 }

/-- Concrete fixture: a present device exposing the single axis
`axisNeg1To1`. -/
def padMidAxis : NativeGamepad :=
  { device := 1, axes := [axisNeg1To1], buttons := [], hats := [],
    axisValues := [], buttonValues := [], hatValues := [] }

/-- Concrete fixture: a present device exposing the single axis
`axisZeroZero`. -/
def padCal : NativeGamepad :=
  { device := 1, axes := [axisZeroZero], buttons := [], hats := [],
    axisValues := [], buttonValues := [], hatValues := [] }

/-- Concrete fixture: a present device exposing the single hat `hatElem`. -/
def padOneHat : NativeGamepad :=
  { device := 1, axes := [], buttons := [], hats := [hatElem],
    axisValues := [], buttonValues := [], hatValues := [] }

/-- Concrete read environment: every element reads raw 0. -/
def readZero : Nat → Option Int := fun _ => some 0

/-- Concrete read environment: every element reads raw -5. -/
def readNeg5 : Nat → Option Int := fun _ => some (-5)

/-- Concrete read environment: every read fails. -/
def readFail : Nat → Option Int := fun _ => none

/-- Concrete fixture: a button-page raw element with usage 1 and native
handle 21. -/
def rawBtnA : RawElement :=
  { native := 21, isElement := true, typ := kIOHIDElementTypeInput_Button,
    page := kHIDPage_Button, usage := 1, logicalMin := 0, logicalMax := 1 }

/-- Concrete fixture: a button-page raw element with the same usage 1 as
`rawBtnA` but native handle 22, discovered second. -/
def rawBtnB : RawElement :=
  { native := 22, isElement := true, typ := kIOHIDElementTypeInput_Button,
    page := kHIDPage_Button, usage := 1, logicalMin := 0, logicalMax := 1 }

/-- Concrete fixture: device properties for a handle-5 device with no
usable vendor or product ID and no elements. -/
def propsDev5 : DeviceProps :=
  { device := 5, devName := [85, 110, 107, 110, 111, 119, 110],
    vendor := 0, product := 0, version := 0, elements := [] }

/-- Discovery-order indexing: every position of the bucket holds an element
whose `index` field equals that position. -/
def indexedList (l : List Element) : Prop :=
  ∀ k (h : k < l.length), (l.get ⟨k, h⟩).index = k

/-- Characterization of `elements.Less` as the strict lexicographic order on
`(usage, index)`. -/
lemma elemLess_iff (a b : Element) :
    elemLess a b = true ↔ a.usage < b.usage ∨ (a.usage = b.usage ∧ a.index < b.index) := by
  unfold elemLess
  split_ifs with h1 h2 <;> simp_all

instance : IsTotal Element elemLE :=
  ⟨fun a b => by
    unfold elemLE
    rcases Bool.eq_false_or_eq_true (elemLess b a) with h | h
    swap
    · exact Or.inl h
    · right
      rw [Bool.eq_false_iff]
      intro hab
      have h1 := (elemLess_iff b a).mp h
      have h2 := (elemLess_iff a b).mp hab
      omega⟩

instance : IsTrans Element elemLE :=
  ⟨fun a b c hab hbc => by
    unfold elemLE at *
    rw [Bool.eq_false_iff] at hab hbc ⊢
    intro h
    have h1 := (elemLess_iff c a).mp h
    have k1 : ¬(b.usage < a.usage ∨ (b.usage = a.usage ∧ b.index < a.index)) :=
      fun hh => hab ((elemLess_iff b a).mpr hh)
    have k2 : ¬(c.usage < b.usage ∨ (c.usage = b.usage ∧ c.index < b.index)) :=
      fun hh => hbc ((elemLess_iff c b).mpr hh)
    omega⟩

/-- Arithmetic core of axis normalization: with calibrated bounds around the
raw reading and a nonzero range, the normalized value lies in `[-1, 1]`. -/
lemma normalize_bounds (m M raw : ℤ) (h1 : m ≤ raw) (h2 : raw ≤ M) (hne : M - m ≠ 0) :
    -1 ≤ 2 * ((raw : ℚ) - (m : ℚ)) / (((M - m : ℤ) : ℚ)) - 1 ∧
      2 * ((raw : ℚ) - (m : ℚ)) / (((M - m : ℤ) : ℚ)) - 1 ≤ 1 := by
  have hs : (0 : ℚ) < ((M - m : ℤ) : ℚ) := by
    have : (0 : ℤ) < M - m := by omega
    exact_mod_cast this
  constructor
  · have hnum : (0 : ℚ) ≤ 2 * ((raw : ℚ) - (m : ℚ)) := by
      have : (m : ℚ) ≤ (raw : ℚ) := by exact_mod_cast h1
      linarith
    have := div_nonneg hnum hs.le
    linarith
  · rw [sub_le_iff_le_add, div_le_iff₀ hs]
    have hr : ((raw : ℚ)) ≤ (M : ℚ) := by exact_mod_cast h2
    push_cast
    linarith

/-- The axis-loop body equals normalization over the per-poll widened bounds
`min(minimum, raw)` and `max(maximum, raw)`. -/
lemma updateAxis_eq (g : NativeGamepad) (read : Nat → Option Int) (a : Element) :
    updateAxis g read a =
      normalizeQ (min a.minimum (elementValue g read a)) (max a.maximum (elementValue g read a))
        (elementValue g read a) := by
  unfold updateAxis
  by_cases h1 : elementValue g read a < a.minimum <;>
    by_cases h2 : elementValue g read a > a.maximum <;>
      simp only [if_pos, if_neg, h1, h2, ite_true, ite_false, not_false_iff] <;>
      (congr 1 <;> omega)

/-- Bounds for `normalizeQ` when the bounds straddle the raw value. -/
lemma normalizeQ_bounds (m M raw : ℤ) (h1 : m ≤ raw) (h2 : raw ≤ M) :
    -1 ≤ normalizeQ m M raw ∧ normalizeQ m M raw ≤ 1 ∧
      (M - m = 0 → normalizeQ m M raw = 0) := by
  unfold normalizeQ
  split_ifs with h
  · exact ⟨(normalize_bounds m M raw h1 h2 h).1, (normalize_bounds m M raw h1 h2 h).2,
      fun hh => absurd hh h⟩
  · exact ⟨by norm_num, by norm_num, fun _ => rfl⟩

/-- Concatenating the twelve hex-encoded indexed bytes of a 12-byte list is
its hex encoding. -/
lemma fallback_concat (bs : List Nat) (h : bs.length = 12) :
    byteHex (bs.getD 0 0) ++ byteHex (bs.getD 1 0) ++ byteHex (bs.getD 2 0) ++ byteHex (bs.getD 3 0)
      ++ byteHex (bs.getD 4 0) ++ byteHex (bs.getD 5 0) ++ byteHex (bs.getD 6 0) ++ byteHex (bs.getD 7 0)
      ++ byteHex (bs.getD 8 0) ++ byteHex (bs.getD 9 0) ++ byteHex (bs.getD 10 0) ++ byteHex (bs.getD 11 0)
    = hexBytes bs := by
  rcases bs with _ | ⟨a0, bs⟩; · simp at h
  rcases bs with _ | ⟨a1, bs⟩; · simp at h
  rcases bs with _ | ⟨a2, bs⟩; · simp at h
  rcases bs with _ | ⟨a3, bs⟩; · simp at h
  rcases bs with _ | ⟨a4, bs⟩; · simp at h
  rcases bs with _ | ⟨a5, bs⟩; · simp at h
  rcases bs with _ | ⟨a6, bs⟩; · simp at h
  rcases bs with _ | ⟨a7, bs⟩; · simp at h
  rcases bs with _ | ⟨a8, bs⟩; · simp at h
  rcases bs with _ | ⟨a9, bs⟩; · simp at h
  rcases bs with _ | ⟨a10, bs⟩; · simp at h
  rcases bs with _ | ⟨a11, bs⟩; · simp at h
  rcases bs with _ | ⟨a12, bs⟩
  swap
  · simp at h
  apply String.ext
  simp [hexBytes, byteHex]

/-- Whenever the vendor ID or the product ID is zero, the identifier is the
name-derived one the spec describes. -/
lemma sdlID_else_eq (v p ver : Nat) (name : List Nat) (h : v = 0 ∨ p = 0) :
    sdlID v p ver name = nameIdOfSpec name := by
  unfold sdlID nameIdOfSpec
  rw [if_neg (by tauto : ¬(v ≠ 0 ∧ p ≠ 0))]
  by_cases hl : name.length < 12
  · rw [if_pos hl]
    have ht : (name ++ List.replicate 12 0).take 12
        = name ++ List.replicate (12 - name.length) 0 := by
      rw [List.take_append_eq_append_take, List.take_of_length_le (by omega),
        List.take_replicate]
      congr 2
      omega
    have hlen : (name ++ List.replicate (12 - name.length) 0).length = 12 := by
      simp
      omega
    rw [ht, ← fallback_concat _ hlen]
    simp [String.append_assoc]
  · rw [if_neg hl]
    have ht : (name ++ List.replicate 12 0).take 12 = name.take 12 :=
      List.take_append_of_le_length (by omega)
    have hlen : (name.take 12).length = 12 := by
      simp
      omega
    rw [ht, ← fallback_concat _ hlen]
    simp [String.append_assoc, List.getD_eq_getElem?_getD, List.getElem?_take]

/-- C4: raw hat values 0 through 7 decode through the fixed table to the
cycle Up, Right-Up, Right, Right-Down, Down, Left-Down, Left, Left-Up, in
that order; every raw value outside [0,7] decodes to Centered; `update`
applies exactly this decoding to every hat element. -/
theorem c4_hat_decode_cycle :
    (∀ g read, (update g read).hatValues = g.hats.map (fun h => hatDecode (elementValue g read h)))
      ∧ (hatDecode 0 = hatUp ∧ hatDecode 1 = hatRightUp ∧ hatDecode 2 = hatRight
        ∧ hatDecode 3 = hatRightDown ∧ hatDecode 4 = hatDown ∧ hatDecode 5 = hatLeftDown
        ∧ hatDecode 6 = hatLeft ∧ hatDecode 7 = hatLeftUp)
      ∧ (∀ v : Int, v < 0 ∨ 7 < v → hatDecode v = hatCentered) := by
  refine ⟨fun g read => rfl, by decide, fun v hv => ?_⟩
  unfold hatDecode
  split_ifs with hc
  · rfl
  · exfalso
    simp [hatStatesList] at hc
    omega

/-- Witness for C4 at the concrete out-of-range raw values -1, 8 and 255. -/
theorem c4_hat_decode_cycle_witness :
    hatDecode (-1) = hatCentered ∧ hatDecode 8 = hatCentered ∧ hatDecode 255 = hatCentered :=
  ⟨c4_hat_decode_cycle.2.2 (-1) (Or.inl (by decide)),
    c4_hat_decode_cycle.2.2 8 (Or.inr (by decide)),
    c4_hat_decode_cycle.2.2 255 (Or.inr (by decide))⟩

/-- C5: with non-zero vendor and product IDs the identifier is the
32-hex-character string with prefix "03000000" encoding vendor, product and
version little-endian with "0000" padding, independent of the display name
(and of element content, which the identifier computation never reads);
the concrete triple (0x045E, 0x028E, 0x0114) yields
"030000005e0400008e02000014010000". -/
theorem c5_vendor_product_identifier (v p ver : Nat) (n n2 : List Nat)
    (hv : v ≠ 0) (hp : p ≠ 0) :
    sdlID v p ver n
        = "03000000" ++ byteHex (v % 256) ++ byteHex (v / 256 % 256) ++ "0000"
          ++ byteHex (p % 256) ++ byteHex (p / 256 % 256) ++ "0000"
          ++ byteHex (ver % 256) ++ byteHex (ver / 256 % 256) ++ "0000"
      ∧ (sdlID v p ver n).length = 32
      ∧ sdlID v p ver n = sdlID v p ver n2
      ∧ sdlID 0x045E 0x028E 0x0114 n = "030000005e0400008e02000014010000" := by
  refine ⟨?_, ?_, ?_, ?_⟩
  · unfold sdlID
    rw [if_pos ⟨hv, hp⟩]
  · unfold sdlID
    rw [if_pos ⟨hv, hp⟩]
    simp [String.length_append, byteHex]
    decide
  · unfold sdlID
    rw [if_pos ⟨hv, hp⟩, if_pos ⟨hv, hp⟩]
  · unfold sdlID
    rw [if_pos (by decide : (0x045E : Nat) ≠ 0 ∧ (0x028E : Nat) ≠ 0)]
    decide

/-- Witness for C5 at vendor 0x045E, product 0x028E, version 0x0114. -/
theorem c5_vendor_product_identifier_witness :
    sdlID 0x045E 0x028E 0x0114 [] = "030000005e0400008e02000014010000" ∧
      (sdlID 0x045E 0x028E 0x0114 []).length = 32 :=
  ⟨(c5_vendor_product_identifier 0x045E 0x028E 0x0114 [] [] (by decide) (by decide)).2.2.2,
    (c5_vendor_product_identifier 0x045E 0x028E 0x0114 [] [] (by decide) (by decide)).2.1⟩

/-- C6: when vendor/product IDs are unavailable (zero), the identifier is
the "05000000"-prefixed hex encoding of the first 12 bytes of the display
name, zero-padded when the name is shorter and truncated when longer, and
it is 32 characters; identical names yield identical identifiers because
the identifier is a function of the name alone. -/
theorem c6_name_fallback_identifier (v p ver : Nat) (name : List Nat)
    (h : v = 0 ∨ p = 0) :
    sdlID v p ver name = nameIdOfSpec name
      ∧ sdlID v p ver name
        = "05000000" ++ hexBytes ((name ++ List.replicate 12 0).take 12)
      ∧ (sdlID v p ver name).length = 32 := by
  refine ⟨sdlID_else_eq v p ver name h, sdlID_else_eq v p ver name h, ?_⟩
  rw [sdlID_else_eq v p ver name h]
  unfold nameIdOfSpec
  have hlen : ((name ++ List.replicate 12 0).take 12).length = 12 := by
    simp
  rw [← fallback_concat _ hlen]
  simp [String.length_append, byteHex]
  decide

/-- Witness for C6: a 7-byte name ("Unknown") and a 13-byte name that share
the first 12 bytes after padding/truncation give the stated identifiers. -/
theorem c6_name_fallback_identifier_witness :
    sdlID 0 0 0 [85, 110, 107, 110, 111, 119, 110]
        = nameIdOfSpec [85, 110, 107, 110, 111, 119, 110]
      ∧ (sdlID 0 0 0 [65, 66, 67, 68, 69, 70, 71, 72, 73, 74, 75, 76, 77]).length = 32 :=
  ⟨(c6_name_fallback_identifier 0 0 0 [85, 110, 107, 110, 111, 119, 110] (Or.inl rfl)).1,
    (c6_name_fallback_identifier 0 0 0 [65, 66, 67, 68, 69, 70, 71, 72, 73, 74, 75, 76, 77]
      (Or.inl rfl)).2.2⟩

/-- C10: when exactly one of vendor ID and product ID is zero, the attach
path takes the name-derived "05000000" branch, not the vendor/product
layout: the vendor/product layout is used only when both are non-zero. -/
theorem c10_single_zero_id_uses_name_branch (v p ver : Nat) (name : List Nat)
    (h : (v = 0 ∧ p ≠ 0) ∨ (v ≠ 0 ∧ p = 0)) :
    sdlID v p ver name = nameIdOfSpec name
      ∧ sdlID v p ver name
        = "05000000" ++ hexBytes ((name ++ List.replicate 12 0).take 12) := by
  have h0 : v = 0 ∨ p = 0 := by tauto
  exact ⟨sdlID_else_eq v p ver name h0, sdlID_else_eq v p ver name h0⟩

/-- Witness for C10 at vendor 0, product 0x028E and vendor 0x045E,
product 0. -/
theorem c10_single_zero_id_uses_name_branch_witness :
    sdlID 0 0x028E 0x0114 [88] = nameIdOfSpec [88]
      ∧ sdlID 0x045E 0 0x0114 [88] = nameIdOfSpec [88] :=
  ⟨(c10_single_zero_id_uses_name_branch 0 0x028E 0x0114 [88]
      (Or.inl ⟨rfl, by decide⟩)).1,
    (c10_single_zero_id_uses_name_branch 0x045E 0 0x0114 [88]
      (Or.inr ⟨by decide, rfl⟩)).1⟩

/-- C9: for every integer index outside the valid range of the respective
value buffer, `axisValue` returns 0, `isButtonPressed` returns false and
`hatState` returns Centered; the accessors are pure functions of the state
(they cannot mutate it). -/
theorem c9_out_of_range_accessors_default (g : NativeGamepad) (i : Int) :
    (i < 0 ∨ axisNum g ≤ i → axisValue g i = 0)
      ∧ (i < 0 ∨ buttonNum g ≤ i → isButtonPressed g i = false)
      ∧ (i < 0 ∨ hatNum g ≤ i → hatState g i = hatCentered) := by
  refine ⟨fun h => ?_, fun h => ?_, fun h => ?_⟩
  · unfold axisNum at h
    unfold axisValue
    split_ifs with hc
    · rfl
    · exfalso
      rcases h with h | h <;> omega
  · unfold buttonNum at h
    unfold isButtonPressed
    split_ifs with hc
    · rfl
    · exfalso
      rcases h with h | h <;> omega
  · unfold hatNum at h
    unfold hatState
    split_ifs with hc
    · rfl
    · exfalso
      rcases h with h | h <;> omega

/-- Witness for C9: the accessors at index -1 and past-the-end index 99 on a
one-axis, one-button, one-hat state. -/
theorem c9_out_of_range_accessors_default_witness :
    axisValue ⟨1, [], [], [], [1/2], [true], [hatUp]⟩ (-1) = 0
      ∧ isButtonPressed ⟨1, [], [], [], [1/2], [true], [hatUp]⟩ 99 = false
      ∧ hatState ⟨1, [], [], [], [1/2], [true], [hatUp]⟩ (-1) = hatCentered :=
  ⟨(c9_out_of_range_accessors_default ⟨1, [], [], [], [1/2], [true], [hatUp]⟩ (-1)).1
      (Or.inl (by decide)),
    (c9_out_of_range_accessors_default ⟨1, [], [], [], [1/2], [true], [hatUp]⟩ 99).2.1
      (Or.inr (by decide)),
    (c9_out_of_range_accessors_default ⟨1, [], [], [], [1/2], [true], [hatUp]⟩ (-1)).2.2
      (Or.inl (by decide))⟩

/-- C1: the stored calibration bounds are never modified by `update` at
all.  The Go loop `for i, a := range g.axes` iterates over per-iteration
COPIES of the elements, so the widening `a.minimum = raw` / `a.maximum =
raw` is lost when the iteration ends: a raw reading of -5 below the stored
minimum 0 leaves the stored minimum at 0 instead of lowering it, and in
general `update` returns the axis bucket unchanged. -/
theorem c1_stored_bounds_never_widened :
    elementValue padCal readNeg5 axisZeroZero = -5
      ∧ axisZeroZero.minimum = 0 ∧ (-5 : Int) < 0
      ∧ (update padCal readNeg5).axes.map Element.minimum = [0]
      ∧ (update padCal readNeg5).axes.map Element.maximum = [0]
      ∧ (∀ g read, (update g read).axes = g.axes) :=
  ⟨rfl, rfl, by decide, by decide, by decide, fun g read => rfl⟩

/-- C2 (amended): every normalized axis value produced by `update` lies in
[-1, 1], and a zero calibrated range width (after the widening of that
poll) forces value 0.0; the converse of the zero case is false, see the
counterexample. -/
theorem c2_axis_normalization_in_unit_interval (g : NativeGamepad)
    (read : Nat → Option Int) (a : Element) (ha : a ∈ g.axes) :
    updateAxis g read a ∈ (update g read).axisValues
      ∧ -1 ≤ updateAxis g read a ∧ updateAxis g read a ≤ 1
      ∧ (max a.maximum (elementValue g read a) - min a.minimum (elementValue g read a) = 0 →
          updateAxis g read a = 0) := by
  have hb := normalizeQ_bounds (min a.minimum (elementValue g read a))
    (max a.maximum (elementValue g read a)) (elementValue g read a)
    (min_le_right _ _) (le_max_right _ _)
  refine ⟨List.mem_map_of_mem _ ha, ?_, ?_, ?_⟩ <;> rw [updateAxis_eq g read a]
  · exact hb.1
  · exact hb.2.1
  · exact hb.2.2

/-- Witness for C2 at the one-axis device with logical range [-1, 1]
reading raw 0. -/
theorem c2_axis_normalization_in_unit_interval_witness :
    axisNeg1To1 ∈ padMidAxis.axes
      ∧ -1 ≤ updateAxis padMidAxis readZero axisNeg1To1
      ∧ updateAxis padMidAxis readZero axisNeg1To1 ≤ 1 :=
  ⟨by decide,
    (c2_axis_normalization_in_unit_interval padMidAxis readZero axisNeg1To1 (by decide)).2.1,
    (c2_axis_normalization_in_unit_interval padMidAxis readZero axisNeg1To1 (by decide)).2.2.1⟩

/-- Counterexample to C2 as stated: a mid-range reading (raw 0 on the axis
calibrated to [-1, 1]) normalizes to exactly 0.0 although the calibrated
range width is 2, not 0 — "equals 0.0 exactly when the width is 0" fails
in the only-if direction. -/
theorem c2_zero_value_with_nonzero_width :
    elementValue padMidAxis readZero axisNeg1To1 = 0
      ∧ max axisNeg1To1.maximum (elementValue padMidAxis readZero axisNeg1To1)
          - min axisNeg1To1.minimum (elementValue padMidAxis readZero axisNeg1To1) = 2
      ∧ (update padMidAxis readZero).axisValues = [0] := by
  refine ⟨rfl, by decide, ?_⟩
  show [updateAxis padMidAxis readZero axisNeg1To1] = [0]
  simp [updateAxis, normalizeQ, elementValue, padMidAxis, axisNeg1To1, readZero]

/-- C3 (amended): a transient read failure (or an absent device handle) is
resolved by `elementValue` to the raw value 0 and never propagated; in
`update` this yields button value false and axis normalization of raw 0,
but a failed HAT read decodes through the direction table as Up (index 0),
not Centered. -/
theorem c3_failed_reads_resolve_to_raw_zero (g : NativeGamepad)
    (read : Nat → Option Int) (h : g.device = 0 ∨ ∀ n, read n = none) :
    (∀ e, elementValue g read e = 0)
      ∧ (update g read).buttonValues = List.replicate g.buttons.length false
      ∧ (update g read).hatValues = List.replicate g.hats.length hatUp
      ∧ (update g read).axisValues
        = g.axes.map (fun a => normalizeQ (min a.minimum 0) (max a.maximum 0) 0) := by
  have he : ∀ e, elementValue g read e = 0 := by
    intro e
    unfold elementValue
    rcases h with h | h
    · rw [if_pos h]
    · split_ifs with hd
      · rfl
      · rw [h e.native]
  refine ⟨he, ?_, ?_, ?_⟩
  · have h0 : (update g read).buttonValues
        = g.buttons.map (fun b => decide (elementValue g read b > 0)) := rfl
    rw [h0]
    calc g.buttons.map (fun b => decide (elementValue g read b > 0))
        = g.buttons.map (fun _ => false) :=
          List.map_congr_left (fun b _ => by rw [he b]; rfl)
      _ = List.replicate g.buttons.length false := by simp
  · show g.hats.map (fun x => hatDecode (elementValue g read x)) = _
    calc g.hats.map (fun x => hatDecode (elementValue g read x))
        = g.hats.map (fun _ => hatUp) :=
          List.map_congr_left (fun x _ => by rw [he x]; decide)
      _ = List.replicate g.hats.length hatUp := by simp
  · show g.axes.map (updateAxis g read) = _
    exact List.map_congr_left fun a _ => by rw [updateAxis_eq, he a]

/-- Witness for C3 at a device whose every read fails. -/
theorem c3_failed_reads_resolve_to_raw_zero_witness :
    elementValue padOneHat readFail hatElem = 0
      ∧ (update padOneHat readFail).hatValues = List.replicate 1 hatUp :=
  ⟨(c3_failed_reads_resolve_to_raw_zero padOneHat readFail
      (Or.inr (fun _ => rfl))).1 hatElem,
    (c3_failed_reads_resolve_to_raw_zero padOneHat readFail
      (Or.inr (fun _ => rfl))).2.2.1⟩

/-- Counterexample to C3 as stated: on a present device with one hat whose
read fails, `update` records Up (the table entry at raw 0), which is not
Centered. -/
theorem c3_failed_hat_read_yields_up :
    (update padOneHat readFail).hatValues = [hatUp] ∧ hatUp ≠ hatCentered := by
  constructor
  · show [hatDecode (elementValue padOneHat readFail hatElem)] = [hatUp]
    decide
  · decide

/-- The empty bucket is trivially discovery-indexed. -/
lemma indexed_nil : indexedList [] := by
  intro k hk
  simp at hk

/-- Appending an element carrying the current length as its `index`
preserves discovery indexing. -/
lemma indexed_append (l : List Element) (e : Element) (he : e.index = (l.length : Int))
    (h : indexedList l) : indexedList (l ++ [e]) := by
  intro k hk
  by_cases hkl : k < l.length
  · rw [List.get_append k hkl]
    exact h k hkl
  · have hk1 : k < l.length + 1 := by
      simpa using hk
    have hke : k = l.length := by omega
    subst hke
    have hg : (l ++ [e]).get ⟨l.length, hk⟩ = e := by
      rw [List.get_append_right] <;> simp
    rw [hg, he]

/-- One classification step leaves the axis bucket unchanged or appends one
element indexed with the bucket's length. -/
lemma classifyStep_axes (b : Buckets) (r : RawElement) :
    (classifyStep b r).axes = b.axes
      ∨ (classifyStep b r).axes = b.axes ++ [mkElement r b.axes.length] := by
  unfold classifyStep
  split_ifs <;> simp

/-- One classification step leaves the button bucket unchanged or appends
one element indexed with the bucket's length. -/
lemma classifyStep_buttons (b : Buckets) (r : RawElement) :
    (classifyStep b r).buttons = b.buttons
      ∨ (classifyStep b r).buttons = b.buttons ++ [mkElement r b.buttons.length] := by
  unfold classifyStep
  split_ifs <;> simp

/-- One classification step leaves the hat bucket unchanged or appends one
element indexed with the bucket's length. -/
lemma classifyStep_hats (b : Buckets) (r : RawElement) :
    (classifyStep b r).hats = b.hats
      ∨ (classifyStep b r).hats = b.hats ++ [mkElement r b.hats.length] := by
  unfold classifyStep
  split_ifs <;> simp

/-- The classification fold preserves discovery indexing of all three
buckets. -/
lemma classifyAll_indexed (rs : List RawElement) :
    ∀ b : Buckets, indexedList b.axes → indexedList b.buttons → indexedList b.hats →
      indexedList (rs.foldl classifyStep b).axes
        ∧ indexedList (rs.foldl classifyStep b).buttons
        ∧ indexedList (rs.foldl classifyStep b).hats := by
  induction rs with
  | nil => exact fun b h1 h2 h3 => ⟨h1, h2, h3⟩
  | cons r rs ih =>
    intro b h1 h2 h3
    refine ih (classifyStep b r) ?_ ?_ ?_
    · rcases classifyStep_axes b r with h | h <;> rw [h]
      · exact h1
      · exact indexed_append _ _ rfl h1
    · rcases classifyStep_buttons b r with h | h <;> rw [h]
      · exact h2
      · exact indexed_append _ _ rfl h2
    · rcases classifyStep_hats b r with h | h <;> rw [h]
      · exact h3
      · exact indexed_append _ _ rfl h3

/-- A discovery-indexed bucket has pairwise-distinct `index` fields. -/
lemma indexed_map_nodup (l : List Element) (h : indexedList l) :
    (l.map Element.index).Nodup := by
  rw [List.nodup_iff_injective_get]
  intro i j hij
  have hi : (l.map Element.index).get i = (l.get ⟨i, by simpa using i.isLt⟩).index :=
    List.get_map Element.index
  have hj : (l.map Element.index).get j = (l.get ⟨j, by simpa using j.isLt⟩).index :=
    List.get_map Element.index
  rw [hi, hj, h i (by simpa using i.isLt), h j (by simpa using j.isLt)] at hij
  have : (i : Nat) = (j : Nat) := by exact_mod_cast hij
  exact Fin.ext (by simpa using this)

/-- Stable sorting a discovery-indexed bucket puts equal-usage elements in
strictly increasing discovery order. -/
lemma sorted_preserves_discovery (l : List Element) (h : indexedList l)
    (i j : Nat) (hi : i < (sortElements l).length) (hj : j < (sortElements l).length)
    (hij : i < j)
    (hus : ((sortElements l).get ⟨i, hi⟩).usage = ((sortElements l).get ⟨j, hj⟩).usage) :
    ((sortElements l).get ⟨i, hi⟩).index < ((sortElements l).get ⟨j, hj⟩).index := by
  have hperm : (sortElements l).Perm l := List.perm_insertionSort elemLE l
  have hsorted : List.Pairwise elemLE (sortElements l) :=
    List.sorted_insertionSort elemLE l
  have hle : elemLE ((sortElements l).get ⟨i, hi⟩) ((sortElements l).get ⟨j, hj⟩) :=
    List.pairwise_iff_get.mp hsorted ⟨i, hi⟩ ⟨j, hj⟩ hij
  have hnd : ((sortElements l).map Element.index).Nodup :=
    ((hperm.map Element.index).nodup_iff).mpr (indexed_map_nodup l h)
  have hne : ((sortElements l).get ⟨i, hi⟩).index ≠ ((sortElements l).get ⟨j, hj⟩).index := by
    intro heq
    have h1 : ((sortElements l).map Element.index).get ⟨i, by simpa using hi⟩
        = ((sortElements l).map Element.index).get ⟨j, by simpa using hj⟩ := by
      rw [List.get_map, List.get_map]
      exact heq
    have := (hnd.get_inj_iff).mp h1
    simp at this
    omega
  unfold elemLE at hle
  have hnl : ¬(((sortElements l).get ⟨j, hj⟩).usage < ((sortElements l).get ⟨i, hi⟩).usage
      ∨ (((sortElements l).get ⟨j, hj⟩).usage = ((sortElements l).get ⟨i, hi⟩).usage
        ∧ ((sortElements l).get ⟨j, hj⟩).index < ((sortElements l).get ⟨i, hi⟩).index)) := by
    intro hh
    rw [Bool.eq_false_iff] at hle
    exact hle ((elemLess_iff _ _).mpr hh)
  omega

/-- C7: each classified element is appended to its bucket with index equal
to the bucket's length at append time (discovery order); classification is
deterministic; and in the stable-sorted buckets, any two elements of equal
usage code appear in strictly increasing discovery order. -/
theorem c7_classification_stable_order (rs : List RawElement) :
    (indexedList (rs.foldl classifyStep ⟨[], [], []⟩).axes
        ∧ indexedList (rs.foldl classifyStep ⟨[], [], []⟩).buttons
        ∧ indexedList (rs.foldl classifyStep ⟨[], [], []⟩).hats)
      ∧ classify rs = classify rs
      ∧ (∀ i j (hi : i < (classify rs).axes.length) (hj : j < (classify rs).axes.length),
          i < j →
            ((classify rs).axes.get ⟨i, hi⟩).usage = ((classify rs).axes.get ⟨j, hj⟩).usage →
            ((classify rs).axes.get ⟨i, hi⟩).index < ((classify rs).axes.get ⟨j, hj⟩).index)
      ∧ (∀ i j (hi : i < (classify rs).buttons.length)
            (hj : j < (classify rs).buttons.length),
          i < j →
            ((classify rs).buttons.get ⟨i, hi⟩).usage
              = ((classify rs).buttons.get ⟨j, hj⟩).usage →
            ((classify rs).buttons.get ⟨i, hi⟩).index
              < ((classify rs).buttons.get ⟨j, hj⟩).index)
      ∧ (∀ i j (hi : i < (classify rs).hats.length) (hj : j < (classify rs).hats.length),
          i < j →
            ((classify rs).hats.get ⟨i, hi⟩).usage = ((classify rs).hats.get ⟨j, hj⟩).usage →
            ((classify rs).hats.get ⟨i, hi⟩).index < ((classify rs).hats.get ⟨j, hj⟩).index) := by
  have hidx := classifyAll_indexed rs ⟨[], [], []⟩ indexed_nil indexed_nil indexed_nil
  refine ⟨hidx, rfl, ?_, ?_, ?_⟩
  · exact fun i j hi hj hij hus =>
      sorted_preserves_discovery _ hidx.1 i j hi hj hij hus
  · exact fun i j hi hj hij hus =>
      sorted_preserves_discovery _ hidx.2.1 i j hi hj hij hus
  · exact fun i j hi hj hij hus =>
      sorted_preserves_discovery _ hidx.2.2 i j hi hj hij hus

/-- Witness for C7: two equal-usage button-page elements keep their
discovery order in the sorted bucket. -/
theorem c7_classification_stable_order_witness :
    ((classify [rawBtnA, rawBtnB]).buttons.get ⟨0, by decide⟩).index
      < ((classify [rawBtnA, rawBtnB]).buttons.get ⟨1, by decide⟩).index :=
  (c7_classification_stable_order [rawBtnA, rawBtnB]).2.2.2.1 0 1 (by decide) (by decide)
    (by decide) (by decide)

/-- C8 (spec-modelled registry): attaching a handle already present is a
no-op, two attach notifications for one handle leave exactly one matching
registry entry, and detaching an unknown handle leaves the registry
unchanged. -/
theorem c8_attach_detach_idempotent (gs : List Gamepad) (d d2 : DeviceProps) (dev : Nat)
    (hd : d2.device = d.device) :
    matchingCallback (matchingCallback gs d) d2 = matchingCallback gs d
      ∧ ((∀ g ∈ gs, g.native.device ≠ d.device) →
          (matchingCallback (matchingCallback gs d) d2).countP
              (fun g => g.native.device == d.device) = 1)
      ∧ ((∀ g ∈ gs, g.native.device ≠ dev) → removalCallback gs dev = gs) := by
  have hnoop : matchingCallback (matchingCallback gs d) d2 = matchingCallback gs d := by
    by_cases hf : (gamepadsFind gs (fun g => g.native.device == d.device)).isSome
    · have h1 : matchingCallback gs d = gs := by
        unfold matchingCallback
        rw [if_pos hf]
      rw [h1]
      unfold matchingCallback
      rw [hd, if_pos hf]
    · have h1 : matchingCallback gs d = gamepadsAdd gs
          { name := d.devName
            sdlId := sdlID d.vendor d.product d.version d.devName
            native :=
              { device := d.device, axes := (classify d.elements).axes,
                buttons := (classify d.elements).buttons, hats := (classify d.elements).hats,
                axisValues := [], buttonValues := [], hatValues := [] } } := by
        unfold matchingCallback
        rw [if_neg hf]
      have hnone : gamepadsFind gs (fun g => g.native.device == d.device) = none :=
        Option.not_isSome_iff_eq_none.mp hf
      rw [h1]
      unfold matchingCallback gamepadsFind gamepadsAdd
      rw [hd]
      rw [List.find?_append]
      unfold gamepadsFind at hnone
      rw [hnone]
      simp
  refine ⟨hnoop, fun hfresh => ?_, fun hunknown => ?_⟩
  · rw [hnoop]
    have hnone : gamepadsFind gs (fun g => g.native.device == d.device) = none := by
      unfold gamepadsFind
      rw [List.find?_eq_none]
      intro g hg
      simpa using hfresh g hg
    unfold matchingCallback
    rw [hnone]
    unfold gamepadsAdd
    simp only [Option.isSome_none, Bool.false_eq_true, if_false, List.countP_append]
    have hzero : gs.countP (fun g => g.native.device == d.device) = 0 := by
      rw [List.countP_eq_zero]
      intro g hg
      simpa using hfresh g hg
    rw [hzero]
    simp [List.countP_cons]
  · unfold removalCallback gamepadsRemove
    rw [List.eraseP_eq_self_iff.mpr]
    intro g hg
    simpa using hunknown g hg

/-- Witness for C8: two attaches of the handle-5 device to the empty
registry leave exactly one matching entry; detaching handle 7 from the
empty registry is a no-op. -/
theorem c8_attach_detach_idempotent_witness :
    (matchingCallback (matchingCallback [] propsDev5) propsDev5).countP
        (fun g => g.native.device == propsDev5.device) = 1
      ∧ removalCallback [] 7 = [] :=
  ⟨(c8_attach_detach_idempotent [] propsDev5 propsDev5 7 rfl).2.1 (by simp),
    (c8_attach_detach_idempotent [] propsDev5 propsDev5 7 rfl).2.2 (by simp)⟩
